import Mathlib

/-!
Shallow embedding of the reconciliation worker in
`cryptocurrency_payment/tasks.py` of django-cryptocurrency-payment.

Modelling conventions:
* Money amounts (crypto and fiat) are rationals; the Python source uses
  floats but every claim under study is about the exact arithmetic.
* Addresses and transaction hashes are opaque identifiers, modelled as
  natural numbers; the store's collation order used by `order_by('tx_hash')`
  is the order on `Nat`, with a missing (NULL) hash sorting first.
* Time is an integer count of seconds; `timedelta(hours=h)` is `h * 3600`
  seconds and `timedelta(minutes=m)` is `m * 60` seconds.  Each sweep is run
  at a fixed instant `now`.
* The payment store is a `List Payment`; `payment.save()` writes the record
  back in place (and bumps `updated_at`, per the spec's data model).
-/

namespace CryptoPayment

/-- The status enum of `CryptoCurrencyPayment`:
NEW, WAIT, PROCESSING, PAID, CANCELLED. -/
inductive PaymentStatus where
  | new
  | wait
  | processing
  | paid
  | cancelled
deriving DecidableEq, Repr

/-- A `CryptoCurrencyPayment` record, with the fields read or written by
`tasks.py`. `child_payment` stores the primary key of the linked child. -/
structure Payment where
  pk : Nat
  crypto : String
  address : Nat
  crypto_amount : ℚ
  fiat_amount : ℚ
  fiat_currency : String
  paid_crypto_amount : Option ℚ
  status : PaymentStatus
  tx_hash : Option Nat
  created_at : Int
  updated_at : Int
  child_payment : Option Nat
deriving DecidableEq, Repr

/-- The outcome classification returned by the backend's
`confirm_address_payment`: the `(status, value)` pair of the source, where
`value` is a transaction reference for the unconfirmed case, the received
amount for the confirmed case, and the remaining amount for the underpaid
case.  `unknown` stands for any other returned status constant. -/
inductive AdapterOutcome where
  | unconfirmed (tx : Option Nat)
  | confirmed (amount : ℚ)
  | underpaid (remaining : ℚ)
  | noHash
  | unknown
deriving DecidableEq, Repr

/-- The blockchain backend object, restricted to the three capabilities
`tasks.py` consumes: `confirm_address_payment` (arguments in source order:
address, total crypto amount, confirmation number, hashless-confirmation
grace minutes, current tx hash), `convert_to_fiat` and `convert_from_fiat`. -/
structure BackendAdapter where
  confirm : Nat → ℚ → Nat → Int → Option Nat → AdapterOutcome
  convert_to_fiat : ℚ → String → ℚ
  convert_from_fiat : ℚ → String → ℚ

/-- The per-backend configuration loaded in `CryptoCurrencyPaymentTask.__init__`. -/
structure TaskConfig where
  crypto : String
  unpaid_payment_hrs : Int
  ignore_underpayment_amount : ℚ
  create_new_underpayment : Bool
  refresh_prices_every_mins : Int
  confirmation_number : Nat
  confirm_bal_without_hash_mins : Int
deriving Repr

/-- Modelled from the spec: `create_child_payment` is defined in
`cryptocurrency_payment/models.py`, which is not among the provided sources.
Per the spec, an underpayment split creates a new, separately tracked payment
for the residual fiat value, in NEW status with a generated address, and
`child_payment.fiat_amount` equals the remaining fiat value.  Identifier and
address generation are abstracted as injective functions of the parent's
identifiers; the child's requested crypto amount is produced by the
out-of-scope creation flow from the residual fiat value via the supplied
fiat-to-crypto conversion. -/
def create_child_payment (fromFiat : ℚ → String → ℚ) (now : Int)
    (parent : Payment) (remaining_fiat : ℚ) : Payment :=
  { pk := 2 * parent.pk + 1
    crypto := parent.crypto
    address := 2 * parent.address + 1
    crypto_amount := fromFiat remaining_fiat parent.fiat_currency
    fiat_amount := remaining_fiat
    fiat_currency := parent.fiat_currency
    paid_crypto_amount := none
    status := .new
    tx_hash := none
    created_at := now
    updated_at := now
    child_payment := none }

/-- `status__in=[PAYMENT_NEW, PAYMENT_PROCESSING, PAYMENT_WAIT]` of the
status-update sweep's first `Q` clause. -/
def statusInUpdateSet (s : PaymentStatus) : Bool :=
  match s with
  | .new => true
  | .processing => true
  | .wait => true
  | _ => false

/-- The status-update sweep's queryset filter (tasks.py lines 84-97):
`crypto = self.crypto` and (`status` in {NEW, PROCESSING, WAIT} with
`created_at >= now - unpaid_payment_hrs` hours, or `status = PROCESSING`
with a non-null `tx_hash`). -/
def updateSelected (cfg : TaskConfig) (now : Int) (p : Payment) : Bool :=
  decide (p.crypto = cfg.crypto) &&
    ((statusInUpdateSet p.status &&
        decide (now - cfg.unpaid_payment_hrs * 3600 ≤ p.created_at)) ||
      (decide (p.status = .processing) && p.tx_hash.isSome))

/-- Comparison of optional hashes: a missing (NULL) hash sorts first. -/
def optNatLe (x y : Option Nat) : Bool :=
  match x, y with
  | none, _ => true
  | some _, none => false
  | some m, some n => decide (m ≤ n)

/-- `order_by('tx_hash')`: compare two payments by transaction hash, a
missing hash sorting first. -/
def txLe (a b : Payment) : Bool :=
  optNatLe a.tx_hash b.tx_hash

/-- The materialised, ordered queryset of the status-update sweep. -/
def updateSelection (cfg : TaskConfig) (now : Int) (store : List Payment) :
    List Payment :=
  (store.filter (updateSelected cfg now)).mergeSort txLe

/-- The loop body of `update_crypto_currency_payment_status`
(tasks.py lines 100-138) for one payment, with a total (non-raising)
adapter: returns the saved state of the payment and the child payment
created by the underpaid auto-spawn branch, if any. -/
def processPayment (cfg : TaskConfig) (A : BackendAdapter) (now : Int)
    (p : Payment) : Payment × Option Payment :=
  match A.confirm p.address p.crypto_amount cfg.confirmation_number
      cfg.confirm_bal_without_hash_mins p.tx_hash with
  | .unconfirmed v =>
      ({ p with status := .processing, tx_hash := v, updated_at := now }, none)
  | .confirmed v =>
      ({ p with
          status := .paid
          paid_crypto_amount := some v
          updated_at := now }, none)
  | .underpaid remaining_value =>
      let remaining_fiat_value :=
        A.convert_to_fiat remaining_value p.fiat_currency
      let p1 := { p with
        paid_crypto_amount := some (p.crypto_amount - remaining_value) }
      if cfg.create_new_underpayment = true ∧
          cfg.ignore_underpayment_amount < remaining_fiat_value then
        let child := create_child_payment A.convert_from_fiat now p1
          remaining_fiat_value
        ({ p1 with
            child_payment := some child.pk
            status := .paid
            updated_at := now }, some child)
      else if remaining_fiat_value ≤ cfg.ignore_underpayment_amount then
        ({ p1 with status := .paid, updated_at := now }, none)
      else
        ({ p1 with updated_at := now }, none)
  | .noHash =>
      ({ p with status := .wait, tx_hash := none, updated_at := now }, none)
  | .unknown =>
      ({ p with status := .cancelled, updated_at := now }, none)

/-- The effect of the status-update sweep on one record of the store:
selected records are replaced by their saved state, unselected records are
untouched. -/
def updateRecord (cfg : TaskConfig) (A : BackendAdapter) (now : Int)
    (p : Payment) : Payment :=
  if updateSelected cfg now p then (processPayment cfg A now p).1 else p

/-- The child payments persisted during the status-update sweep, in
processing order. -/
def updateChildren (cfg : TaskConfig) (A : BackendAdapter) (now : Int)
    (store : List Payment) : List Payment :=
  (updateSelection cfg now store).filterMap
    (fun p => (processPayment cfg A now p).2)

/-- `CryptoCurrencyPaymentTask.update_crypto_currency_payment_status` with a
total adapter: the store after the sweep.  Each selected record is updated in
place (the loop mutates one row at a time, from the snapshot taken before the
loop) and the spawned children are inserted into the store. -/
def update_crypto_currency_payment_status (cfg : TaskConfig)
    (A : BackendAdapter) (now : Int) (store : List Payment) : List Payment :=
  store.map (updateRecord cfg A now) ++ updateChildren cfg A now store

/-- The unpaid-expiry sweep's queryset filter (tasks.py lines 149-152):
`status` in {NEW, WAIT} and `created_at <= now - unpaid_payment_hrs` hours.
Note the filter does not mention the backend code. -/
def cancelSelected (hrs : Int) (now : Int) (p : Payment) : Bool :=
  (decide (p.status = .new) || decide (p.status = .wait)) &&
    decide (p.created_at ≤ now - hrs * 3600)

/-- `CryptoCurrencyPaymentTask.cancel_unpaid_payment` (tasks.py lines
142-155): every selected record is set to CANCELLED and saved in place. -/
def cancel_unpaid_payment (hrs : Int) (now : Int) (store : List Payment) :
    List Payment :=
  store.map (fun p =>
    if cancelSelected hrs now p then
      { p with status := .cancelled, updated_at := now }
    else p)

/-- The price-refresh sweep's queryset filter (tasks.py lines 166-168):
`status` in {NEW, WAIT} and `updated_at <= now - refresh_prices_every_mins`
minutes.  Note the filter does not mention the backend code. -/
def refreshSelected (mins : Int) (now : Int) (p : Payment) : Bool :=
  (decide (p.status = .new) || decide (p.status = .wait)) &&
    decide (p.updated_at ≤ now - mins * 60)

/-- `CryptoCurrencyPaymentTask.refresh_new_crypto_payment_amount`
(tasks.py lines 157-174) with a total adapter: every selected record has
its `crypto_amount` overwritten with
`convert_from_fiat(fiat_amount, fiat_currency)` and is saved in place. -/
def refresh_new_crypto_payment_amount (cfg : TaskConfig)
    (A : BackendAdapter) (now : Int) (store : List Payment) : List Payment :=
  store.map (fun p =>
    if refreshSelected cfg.refresh_prices_every_mins now p then
      { p with
          crypto_amount := A.convert_from_fiat p.fiat_amount p.fiat_currency
          updated_at := now }
    else p)

/-!
## Fallible layer

The source's adapter calls, fiat conversions and saves can raise.  The
fallible adapter returns `Except String` results, and a `saveOk` predicate
says which record states the store accepts (a save of a rejected state
raises).  The status-update sweep wraps each iteration in `try/except`
(tasks.py lines 98-140); the expiry and price-refresh sweeps have no
handler, so an exception propagates out of the loop.
-/

/-- The backend adapter with fallible operations. -/
structure FallibleAdapter where
  confirm : Nat → ℚ → Nat → Int → Option Nat → Except String AdapterOutcome
  convert_to_fiat : ℚ → String → Except String ℚ
  convert_from_fiat : ℚ → String → Except String ℚ

/-- One iteration of the status-update loop with fallible operations,
mirroring tasks.py lines 99-140: the result is the persisted state of the
payment (unchanged when an exception was raised before a successful save),
the child record persisted by `create_child_payment` (the child is created
and saved before the parent's own save, so it survives a failing parent
save), and the logged error, if any.  The modelled child creation uses a
total conversion, since its internals are out of scope. -/
def processPaymentExc (cfg : TaskConfig) (FA : FallibleAdapter)
    (fromFiat : ℚ → String → ℚ) (saveOk : Payment → Bool) (now : Int)
    (p : Payment) : Payment × Option Payment × Option String :=
  match FA.confirm p.address p.crypto_amount cfg.confirmation_number
      cfg.confirm_bal_without_hash_mins p.tx_hash with
  | .error e => (p, none, some e)
  | .ok (.unconfirmed v) =>
      let p1 := { p with status := .processing, tx_hash := v, updated_at := now }
      if saveOk p1 then (p1, none, none) else (p, none, some "save")
  | .ok (.confirmed v) =>
      let p1 := { p with
        status := .paid
        paid_crypto_amount := some v
        updated_at := now }
      if saveOk p1 then (p1, none, none) else (p, none, some "save")
  | .ok (.underpaid remaining_value) =>
      match FA.convert_to_fiat remaining_value p.fiat_currency with
      | .error e => (p, none, some e)
      | .ok remaining_fiat_value =>
        let p1 := { p with
          paid_crypto_amount := some (p.crypto_amount - remaining_value) }
        if cfg.create_new_underpayment = true ∧
            cfg.ignore_underpayment_amount < remaining_fiat_value then
          let child := create_child_payment fromFiat now p1 remaining_fiat_value
          let p2 := { p1 with
            child_payment := some child.pk
            status := .paid
            updated_at := now }
          if saveOk p2 then (p2, some child, none)
          else (p, some child, some "save")
        else if remaining_fiat_value ≤ cfg.ignore_underpayment_amount then
          let p2 := { p1 with status := .paid, updated_at := now }
          if saveOk p2 then (p2, none, none) else (p, none, some "save")
        else
          let p2 := { p1 with updated_at := now }
          if saveOk p2 then (p2, none, none) else (p, none, some "save")
  | .ok .noHash =>
      let p1 := { p with status := .wait, tx_hash := none, updated_at := now }
      if saveOk p1 then (p1, none, none) else (p, none, some "save")
  | .ok .unknown =>
      let p1 := { p with status := .cancelled, updated_at := now }
      if saveOk p1 then (p1, none, none) else (p, none, some "save")

/-- The status-update loop over its selection, with the source's per-record
`try/except`: an exception is logged together with the payment's primary key
(tasks.py line 140) and the loop continues with the next payment.  Returns
the persisted states in order, the persisted children, and the log. -/
def updateLoopExc (cfg : TaskConfig) (FA : FallibleAdapter)
    (fromFiat : ℚ → String → ℚ) (saveOk : Payment → Bool) (now : Int) :
    List Payment → List Payment × List Payment × List (Nat × String)
  | [] => ([], [], [])
  | p :: rest =>
      let r := processPaymentExc cfg FA fromFiat saveOk now p
      let t := updateLoopExc cfg FA fromFiat saveOk now rest
      (r.1 :: t.1, r.2.1.toList ++ t.2.1,
        (match r.2.2 with
          | some e => [(p.pk, e)]
          | none => []) ++ t.2.2)

/-- The unpaid-expiry loop with fallible saves, mirroring tasks.py lines
153-155: there is no exception handler, so the first failing save aborts
the loop — records already processed keep their saved state, the failing
record and every record after it are left untouched, and the exception
propagates (returned as `some` error). -/
def cancelLoopExc (hrs : Int) (saveOk : Payment → Bool) (now : Int) :
    List Payment → List Payment × Option (Nat × String)
  | [] => ([], none)
  | p :: rest =>
      if cancelSelected hrs now p then
        let p1 := { p with status := .cancelled, updated_at := now }
        if saveOk p1 then
          let t := cancelLoopExc hrs saveOk now rest
          (p1 :: t.1, t.2)
        else (p :: rest, some (p.pk, "save"))
      else
        let t := cancelLoopExc hrs saveOk now rest
        (p :: t.1, t.2)

/-- The price-refresh loop with a fallible adapter and fallible saves,
mirroring tasks.py lines 169-174: there is no exception handler, so the
first failing conversion or save aborts the loop — the failing record and
every record after it are left untouched and the exception propagates. -/
def refreshLoopExc (mins : Int) (FA : FallibleAdapter)
    (saveOk : Payment → Bool) (now : Int) :
    List Payment → List Payment × Option (Nat × String)
  | [] => ([], none)
  | p :: rest =>
      if refreshSelected mins now p then
        match FA.convert_from_fiat p.fiat_amount p.fiat_currency with
        | .error e => (p :: rest, some (p.pk, e))
        | .ok amount =>
          let p1 := { p with crypto_amount := amount, updated_at := now }
          if saveOk p1 then
            let t := refreshLoopExc mins FA saveOk now rest
            (p1 :: t.1, t.2)
          else (p :: rest, some (p.pk, "save"))
      else
        let t := refreshLoopExc mins FA saveOk now rest
        (p :: t.1, t.2)

/-!
## Concrete sample inputs

Used by witnesses and counterexamples.  The configuration mirrors the
`BITCOIN` backend of `tests/settings.py` (24h expiry, ignore threshold 10,
auto-spawn enabled, 15 min refresh, 1 confirmation, 20 min grace).
-/

/-- The `BITCOIN` backend configuration of `tests/settings.py`. -/
def sampleConfig : TaskConfig :=
  { crypto := "BITCOIN"
    unpaid_payment_hrs := 24
    ignore_underpayment_amount := 10
    create_new_underpayment := true
    refresh_prices_every_mins := 15
    confirmation_number := 1
    confirm_bal_without_hash_mins := 20 }

/-- `sampleConfig` with underpayment auto-spawn disabled. -/
def gapConfig : TaskConfig :=
  { sampleConfig with create_new_underpayment := false }

/-- A payment in PROCESSING with an observed transaction, created half an
hour before the sweep instant `now = 0`, requesting 1 crypto unit. -/
def samplePayment : Payment :=
  { pk := 7
    crypto := "BITCOIN"
    address := 4
    crypto_amount := 1
    fiat_amount := 100
    fiat_currency := "USD"
    paid_crypto_amount := none
    status := .processing
    tx_hash := some 5
    created_at := -1800
    updated_at := -1800
    child_payment := none }

/-- An adapter that reports every address underpaid with remaining amount
`r`, at a flat rate of 100 fiat units per crypto unit. -/
def underpaidAdapter (r : ℚ) : BackendAdapter :=
  { confirm := fun _ _ _ _ _ => .underpaid r
    convert_to_fiat := fun q _ => 100 * q
    convert_from_fiat := fun q _ => q / 100 }

/-- An adapter that reports every address underpaid with remaining amount
`r`, with identity fiat conversions (rate 1:1). -/
def flatAdapter (r : ℚ) : BackendAdapter :=
  { confirm := fun _ _ _ _ _ => .underpaid r
    convert_to_fiat := fun q _ => q
    convert_from_fiat := fun q _ => q }

/-- The status-update selection rule as worded by the spec, to be compared
with the source-shaped filter `updateSelected`: payments of this backend
where either the status is one of {NEW, PROCESSING, WAIT} and `created_at`
is within the expiry window from now, or the status is PROCESSING and
`tx_hash` is non-null. -/
def updateSelectionSpec (cfg : TaskConfig) (now : Int) (p : Payment) : Prop :=
  p.crypto = cfg.crypto ∧
    (((p.status = .new ∨ p.status = .processing ∨ p.status = .wait) ∧
        now - cfg.unpaid_payment_hrs * 3600 ≤ p.created_at) ∨
      (p.status = .processing ∧ p.tx_hash ≠ none))

/-- A NEW payment created 25 hours before the sweep instant `now = 0`. -/
def stalePayment : Payment :=
  { samplePayment with
      pk := 8
      status := .new
      tx_hash := none
      created_at := -25 * 3600
      updated_at := -25 * 3600 }

/-- A WAIT payment, last updated 25 hours before the sweep instant. -/
def staleWaitPayment : Payment :=
  { stalePayment with pk := 10, status := .wait }

/-- A stale NEW payment belonging to a different backend. -/
def otherBackendPayment : Payment :=
  { stalePayment with pk := 9, crypto := "DOGECOIN" }

/-- A fallible adapter whose every operation raises. -/
def failingAdapter : FallibleAdapter :=
  { confirm := fun _ _ _ _ _ => .error "boom"
    convert_to_fiat := fun _ _ => .error "boom"
    convert_from_fiat := fun _ _ => .error "boom" }

/-- A fallible adapter that reports no funds on every address and never
raises (used as a benign peer next to a failing record). -/
def idleAdapter : FallibleAdapter :=
  { confirm := fun _ _ _ _ _ => .ok .noHash
    convert_to_fiat := fun q _ => .ok q
    convert_from_fiat := fun q _ => .ok q }

/-- An adapter that reports the sample payment's address (4) underpaid by
25 and every other address as having no funds, with identity conversions.
Its outcome depends only on the address. -/
def spawnThenIdleAdapter : BackendAdapter :=
  { confirm := fun a _ _ _ _ => if a = 4 then .underpaid 25 else .noHash
    convert_to_fiat := fun q _ => q
    convert_from_fiat := fun q _ => q }

end CryptoPayment

namespace CryptoPayment

/-- C1: in the status-update sweep, a selected payment whose adapter outcome
is underpaid, with auto-spawn enabled and remaining fiat value strictly above
the ignore threshold, gets a child payment created for the remaining fiat
value, its `child_payment` link set to that child, and its status set to
PAID; the child's `fiat_amount` equals the remaining fiat value. -/
theorem underpaid_spawn_creates_child (cfg : TaskConfig) (A : BackendAdapter)
    (now : Int) (p : Payment) (r : ℚ)
    (hsel : updateSelected cfg now p = true)
    (hout : A.confirm p.address p.crypto_amount cfg.confirmation_number
      cfg.confirm_bal_without_hash_mins p.tx_hash = .underpaid r)
    (hspawn : cfg.create_new_underpayment = true)
    (hthr : cfg.ignore_underpayment_amount <
      A.convert_to_fiat r p.fiat_currency) :
    ∃ child, (processPayment cfg A now p).2 = some child ∧
      child.fiat_amount = A.convert_to_fiat r p.fiat_currency ∧
      (processPayment cfg A now p).1.child_payment = some child.pk ∧
      (processPayment cfg A now p).1.status = .paid := by
  simp only [processPayment, hout]
  rw [if_pos ⟨hspawn, hthr⟩]
  exact ⟨_, rfl, rfl, rfl, rfl⟩

/-- Witness for C1 at the sample inputs: remaining 1/4 crypto converts to
25 fiat units, above the threshold of 10. -/
theorem underpaid_spawn_creates_child_witness :
    ∃ child,
      (processPayment sampleConfig (underpaidAdapter (1/4)) 0
        samplePayment).2 = some child ∧
      child.fiat_amount =
        (underpaidAdapter (1/4)).convert_to_fiat (1/4)
          samplePayment.fiat_currency ∧
      (processPayment sampleConfig (underpaidAdapter (1/4)) 0
        samplePayment).1.child_payment = some child.pk ∧
      (processPayment sampleConfig (underpaidAdapter (1/4)) 0
        samplePayment).1.status = .paid :=
  underpaid_spawn_creates_child sampleConfig (underpaidAdapter (1/4)) 0
    samplePayment (1/4) (by decide) rfl rfl
    (by norm_num [underpaidAdapter, sampleConfig, samplePayment])

/-- C2: in the status-update sweep, a selected payment whose adapter outcome
is underpaid with remaining fiat value at or below the ignore threshold ends
PAID, spawns no child, keeps its `child_payment` link (null stays null), and
has `paid_crypto_amount` set to the requested crypto amount minus the
remaining amount. -/
theorem underpaid_dust_forgiven (cfg : TaskConfig) (A : BackendAdapter)
    (now : Int) (p : Payment) (r : ℚ)
    (hsel : updateSelected cfg now p = true)
    (hout : A.confirm p.address p.crypto_amount cfg.confirmation_number
      cfg.confirm_bal_without_hash_mins p.tx_hash = .underpaid r)
    (hthr : A.convert_to_fiat r p.fiat_currency ≤
      cfg.ignore_underpayment_amount) :
    (processPayment cfg A now p).1.status = .paid ∧
    (processPayment cfg A now p).2 = none ∧
    (processPayment cfg A now p).1.child_payment = p.child_payment ∧
    (processPayment cfg A now p).1.paid_crypto_amount =
      some (p.crypto_amount - r) := by
  simp only [processPayment, hout]
  rw [if_neg (fun h => absurd hthr (not_le.mpr h.2)), if_pos hthr]
  exact ⟨rfl, rfl, rfl, rfl⟩

/-- Witness for C2, the spec's scenario: requested 1.0, received 0.97, so
the adapter reports remaining 0.03, worth 3 fiat units — at or below the
threshold of 10; the payment ends PAID with `paid_crypto_amount` 0.97 and
no child. -/
theorem underpaid_dust_forgiven_witness :
    (processPayment sampleConfig (underpaidAdapter (3/100)) 0
      samplePayment).1.status = .paid ∧
    (processPayment sampleConfig (underpaidAdapter (3/100)) 0
      samplePayment).2 = none ∧
    (processPayment sampleConfig (underpaidAdapter (3/100)) 0
      samplePayment).1.child_payment = samplePayment.child_payment ∧
    (processPayment sampleConfig (underpaidAdapter (3/100)) 0
      samplePayment).1.paid_crypto_amount =
      some (samplePayment.crypto_amount - 3/100) :=
  underpaid_dust_forgiven sampleConfig (underpaidAdapter (3/100)) 0
    samplePayment (3/100) (by decide) rfl
    (by norm_num [underpaidAdapter, sampleConfig, samplePayment])

/-- C3 counterexample: with auto-spawn disabled and the remaining fiat value
above the ignore threshold, the persisted record of the status-update sweep
has a changed `paid_crypto_amount` while its status is not PAID. -/
theorem paid_amount_without_paid_status_cex :
    ∃ q ∈ update_crypto_currency_payment_status gapConfig
        (flatAdapter 25) 0 [samplePayment],
      q.pk = samplePayment.pk ∧
      q.paid_crypto_amount ≠ samplePayment.paid_crypto_amount ∧
      q.status ≠ .paid := by decide

/-- C3 amended: if a step of the status-update sweep changes
`paid_crypto_amount`, then either that step sets the status to PAID, or the
adapter outcome was underpaid with auto-spawn disabled and remaining fiat
value above the ignore threshold, in which case the status is left
unchanged. -/
theorem paid_amount_assignment_charac (cfg : TaskConfig) (A : BackendAdapter)
    (now : Int) (p : Payment)
    (hch : (processPayment cfg A now p).1.paid_crypto_amount ≠
      p.paid_crypto_amount) :
    (processPayment cfg A now p).1.status = .paid ∨
    (∃ r, A.confirm p.address p.crypto_amount cfg.confirmation_number
        cfg.confirm_bal_without_hash_mins p.tx_hash = .underpaid r ∧
      cfg.create_new_underpayment = false ∧
      cfg.ignore_underpayment_amount < A.convert_to_fiat r p.fiat_currency ∧
      (processPayment cfg A now p).1.status = p.status) := by
  cases hout : A.confirm p.address p.crypto_amount cfg.confirmation_number
      cfg.confirm_bal_without_hash_mins p.tx_hash with
  | unconfirmed v =>
      simp only [processPayment, hout] at hch
      exact absurd rfl hch
  | confirmed v =>
      simp only [processPayment, hout]
      left; trivial
  | underpaid r =>
      simp only [processPayment, hout]
      by_cases hs : cfg.create_new_underpayment = true ∧
          cfg.ignore_underpayment_amount < A.convert_to_fiat r p.fiat_currency
      · rw [if_pos hs]; left; trivial
      · rw [if_neg hs]
        by_cases hd : A.convert_to_fiat r p.fiat_currency ≤
            cfg.ignore_underpayment_amount
        · rw [if_pos hd]; left; trivial
        · rw [if_neg hd]
          refine Or.inr ⟨r, rfl, ?_, not_le.mp hd, rfl⟩
          rcases Bool.eq_false_or_eq_true cfg.create_new_underpayment with
            hb | hb
          · exact absurd ⟨hb, not_le.mp hd⟩ hs
          · exact hb
  | noHash =>
      simp only [processPayment, hout] at hch
      exact absurd rfl hch
  | unknown =>
      simp only [processPayment, hout] at hch
      exact absurd rfl hch

/-- Witness for the amended C3 at the sample inputs with auto-spawn
disabled: `paid_crypto_amount` changes from none to 3/4 while the status
stays PROCESSING. -/
theorem paid_amount_assignment_charac_witness :
    (processPayment gapConfig (flatAdapter 25) 0
        samplePayment).1.status = .paid ∨
    (∃ r, (flatAdapter 25).confirm samplePayment.address
        samplePayment.crypto_amount gapConfig.confirmation_number
        gapConfig.confirm_bal_without_hash_mins samplePayment.tx_hash =
        .underpaid r ∧
      gapConfig.create_new_underpayment = false ∧
      gapConfig.ignore_underpayment_amount <
        (flatAdapter 25).convert_to_fiat r
          samplePayment.fiat_currency ∧
      (processPayment gapConfig (flatAdapter 25) 0
        samplePayment).1.status = samplePayment.status) :=
  paid_amount_assignment_charac gapConfig (flatAdapter 25) 0
    samplePayment (by decide)

/-- The optional-hash comparison is transitive. -/
theorem optNatLe_trans (x y z : Option Nat) (h1 : optNatLe x y = true)
    (h2 : optNatLe y z = true) : optNatLe x z = true := by
  cases x <;> cases y <;> cases z <;> simp_all [optNatLe] <;> omega

/-- The tx-hash comparison is transitive. -/
theorem txLe_trans (a b c : Payment) (h1 : txLe a b = true)
    (h2 : txLe b c = true) : txLe a c = true :=
  optNatLe_trans a.tx_hash b.tx_hash c.tx_hash h1 h2

/-- The tx-hash comparison is total. -/
theorem txLe_total (a b : Payment) : txLe a b || txLe b a := by
  unfold txLe optNatLe
  cases a.tx_hash <;> cases b.tx_hash <;> simp <;> omega

/-- The source-shaped queryset filter agrees with the spec-worded selection
rule. -/
theorem updateSelected_iff (cfg : TaskConfig) (now : Int) (p : Payment) :
    updateSelected cfg now p = true ↔ updateSelectionSpec cfg now p := by
  unfold updateSelected updateSelectionSpec statusInUpdateSet
  cases p.status <;>
    simp [Option.isSome_iff_ne_none, and_assoc] <;> tauto

/-- C4: the status-update sweep's materialised queryset holds exactly the
payments of this backend with (status in {NEW, PROCESSING, WAIT} and
`created_at` within the expiry window) or (status PROCESSING and non-null
`tx_hash`), ordered by `tx_hash` with nulls first. -/
theorem update_sweep_selection_charac (cfg : TaskConfig) (now : Int)
    (store : List Payment) :
    (∀ p, p ∈ updateSelection cfg now store ↔
      p ∈ store ∧ updateSelectionSpec cfg now p) ∧
    (updateSelection cfg now store).Pairwise (fun a b => txLe a b = true) := by
  constructor
  · intro p
    rw [updateSelection, List.mem_mergeSort, List.mem_filter,
      updateSelected_iff]
  · exact List.sorted_mergeSort txLe_trans txLe_total _

/-- Witness for C4 at the sample store. -/
theorem update_sweep_selection_charac_witness :
    (∀ p, p ∈ updateSelection sampleConfig 0 [samplePayment, stalePayment] ↔
      p ∈ [samplePayment, stalePayment] ∧
        updateSelectionSpec sampleConfig 0 p) ∧
    (updateSelection sampleConfig 0 [samplePayment, stalePayment]).Pairwise
      (fun a b => txLe a b = true) :=
  update_sweep_selection_charac sampleConfig 0 [samplePayment, stalePayment]

/-- The expiry sweep's source-shaped filter agrees with the claim's
selection condition. -/
theorem cancelSelected_iff (hrs now : Int) (p : Payment) :
    cancelSelected hrs now p = true ↔
      ((p.status = .new ∨ p.status = .wait) ∧
        p.created_at ≤ now - hrs * 3600) := by
  unfold cancelSelected
  simp

/-- C7: the unpaid-expiry sweep cancels (and persists) exactly the payments
with status NEW or WAIT created at or before the expiry cutoff; every other
record — in particular any PROCESSING or PAID payment, regardless of age —
is left untouched. -/
theorem cancel_unpaid_payment_spec (hrs now : Int) (store : List Payment)
    (i : Nat) (hi : i < store.length) :
    (((store.get ⟨i, hi⟩).status = .new ∨
        (store.get ⟨i, hi⟩).status = .wait) ∧
      (store.get ⟨i, hi⟩).created_at ≤ now - hrs * 3600 →
      (cancel_unpaid_payment hrs now store).get
          ⟨i, by simpa [cancel_unpaid_payment] using hi⟩ =
        { store.get ⟨i, hi⟩ with status := .cancelled, updated_at := now }) ∧
    (¬ (((store.get ⟨i, hi⟩).status = .new ∨
          (store.get ⟨i, hi⟩).status = .wait) ∧
        (store.get ⟨i, hi⟩).created_at ≤ now - hrs * 3600) →
      (cancel_unpaid_payment hrs now store).get
          ⟨i, by simpa [cancel_unpaid_payment] using hi⟩ =
        store.get ⟨i, hi⟩) ∧
    ((store.get ⟨i, hi⟩).status = .processing ∨
        (store.get ⟨i, hi⟩).status = .paid →
      (cancel_unpaid_payment hrs now store).get
          ⟨i, by simpa [cancel_unpaid_payment] using hi⟩ =
        store.get ⟨i, hi⟩) := by
  have hget : (cancel_unpaid_payment hrs now store).get
      ⟨i, by simpa [cancel_unpaid_payment] using hi⟩ =
      (fun p => if cancelSelected hrs now p then
        { p with status := .cancelled, updated_at := now } else p)
        (store.get ⟨i, hi⟩) := by
    simp only [cancel_unpaid_payment]
    exact List.get_map _
  refine ⟨fun hsel => ?_, fun hns => ?_, fun hterm => ?_⟩
  · rw [hget]
    exact if_pos ((cancelSelected_iff hrs now _).mpr hsel)
  · rw [hget]
    exact if_neg (fun hb => hns ((cancelSelected_iff hrs now _).mp hb))
  · rw [hget]
    refine if_neg (fun hb => ?_)
    rcases ((cancelSelected_iff hrs now _).mp hb).1 with h | h <;>
      rcases hterm with h' | h' <;> rw [h] at h' <;> exact
        PaymentStatus.noConfusion h'

/-- Witness for C7, the spec's scenario: a NEW payment created 25 hours ago
with a 24-hour window is cancelled. -/
theorem cancel_unpaid_payment_spec_witness :
    (((([stalePayment].get ⟨0, by decide⟩).status = .new ∨
        ([stalePayment].get ⟨0, by decide⟩).status = .wait) ∧
      ([stalePayment].get ⟨0, by decide⟩).created_at ≤ 0 - 24 * 3600) ∧
      (cancel_unpaid_payment 24 0 [stalePayment]).get
          ⟨0, by simp [cancel_unpaid_payment]⟩ =
        { [stalePayment].get ⟨0, by decide⟩ with
            status := .cancelled, updated_at := 0 }) := by
  have h := cancel_unpaid_payment_spec 24 0 [stalePayment] 0 (by decide)
  refine ⟨⟨Or.inl (by decide), by decide⟩, h.1 ⟨Or.inl (by decide), by decide⟩⟩

/-- The price-refresh sweep's source-shaped filter agrees with the claim's
selection condition. -/
theorem refreshSelected_iff (mins now : Int) (p : Payment) :
    refreshSelected mins now p = true ↔
      ((p.status = .new ∨ p.status = .wait) ∧
        p.updated_at ≤ now - mins * 60) := by
  unfold refreshSelected
  simp

/-- C9: a payment selected by the price-refresh sweep (status NEW or WAIT,
`updated_at` at or before the refresh cutoff) has its `crypto_amount`
overwritten with the adapter's fiat-to-crypto conversion of its unchanged
`fiat_amount`/`fiat_currency`, while `fiat_amount`, `fiat_currency`,
`status` and `tx_hash` are left unchanged; an unselected payment is left
untouched. -/
theorem refresh_sweep_frame (cfg : TaskConfig) (A : BackendAdapter)
    (now : Int) (store : List Payment) (i : Nat) (hi : i < store.length) :
    (((store.get ⟨i, hi⟩).status = .new ∨
        (store.get ⟨i, hi⟩).status = .wait) ∧
      (store.get ⟨i, hi⟩).updated_at ≤
        now - cfg.refresh_prices_every_mins * 60 →
      ((refresh_new_crypto_payment_amount cfg A now store).get
          ⟨i, by simpa [refresh_new_crypto_payment_amount] using hi⟩).crypto_amount =
          A.convert_from_fiat (store.get ⟨i, hi⟩).fiat_amount
            (store.get ⟨i, hi⟩).fiat_currency ∧
        ((refresh_new_crypto_payment_amount cfg A now store).get
          ⟨i, by simpa [refresh_new_crypto_payment_amount] using hi⟩).fiat_amount =
          (store.get ⟨i, hi⟩).fiat_amount ∧
        ((refresh_new_crypto_payment_amount cfg A now store).get
          ⟨i, by simpa [refresh_new_crypto_payment_amount] using hi⟩).fiat_currency =
          (store.get ⟨i, hi⟩).fiat_currency ∧
        ((refresh_new_crypto_payment_amount cfg A now store).get
          ⟨i, by simpa [refresh_new_crypto_payment_amount] using hi⟩).status =
          (store.get ⟨i, hi⟩).status ∧
        ((refresh_new_crypto_payment_amount cfg A now store).get
          ⟨i, by simpa [refresh_new_crypto_payment_amount] using hi⟩).tx_hash =
          (store.get ⟨i, hi⟩).tx_hash) ∧
    (¬ (((store.get ⟨i, hi⟩).status = .new ∨
          (store.get ⟨i, hi⟩).status = .wait) ∧
        (store.get ⟨i, hi⟩).updated_at ≤
          now - cfg.refresh_prices_every_mins * 60) →
      (refresh_new_crypto_payment_amount cfg A now store).get
          ⟨i, by simpa [refresh_new_crypto_payment_amount] using hi⟩ =
        store.get ⟨i, hi⟩) := by
  have hget : (refresh_new_crypto_payment_amount cfg A now store).get
      ⟨i, by simpa [refresh_new_crypto_payment_amount] using hi⟩ =
      (if refreshSelected cfg.refresh_prices_every_mins now
          (store.get ⟨i, hi⟩) then
        { store.get ⟨i, hi⟩ with
            crypto_amount := A.convert_from_fiat
              (store.get ⟨i, hi⟩).fiat_amount (store.get ⟨i, hi⟩).fiat_currency
            updated_at := now }
      else store.get ⟨i, hi⟩) := by
    simp only [refresh_new_crypto_payment_amount]
    exact List.get_map _
  constructor
  · intro hsel
    rw [hget, if_pos ((refreshSelected_iff _ now _).mpr hsel)]
    exact ⟨rfl, rfl, rfl, rfl, rfl⟩
  · intro hns
    rw [hget]
    exact if_neg (fun hb => hns ((refreshSelected_iff _ now _).mp hb))

/-- Witness for C9, the spec's scenario: a WAIT payment last updated 25
hours before the sweep, with a 15-minute refresh interval. -/
theorem refresh_sweep_frame_witness :
    ((refresh_new_crypto_payment_amount sampleConfig (flatAdapter 0) 0
        [staleWaitPayment]).get
        ⟨0, by simp [refresh_new_crypto_payment_amount]⟩).crypto_amount =
      (flatAdapter 0).convert_from_fiat
        ([staleWaitPayment].get ⟨0, by decide⟩).fiat_amount
        ([staleWaitPayment].get ⟨0, by decide⟩).fiat_currency ∧
    ((refresh_new_crypto_payment_amount sampleConfig (flatAdapter 0) 0
        [staleWaitPayment]).get
        ⟨0, by simp [refresh_new_crypto_payment_amount]⟩).fiat_amount =
      ([staleWaitPayment].get ⟨0, by decide⟩).fiat_amount ∧
    ((refresh_new_crypto_payment_amount sampleConfig (flatAdapter 0) 0
        [staleWaitPayment]).get
        ⟨0, by simp [refresh_new_crypto_payment_amount]⟩).fiat_currency =
      ([staleWaitPayment].get ⟨0, by decide⟩).fiat_currency ∧
    ((refresh_new_crypto_payment_amount sampleConfig (flatAdapter 0) 0
        [staleWaitPayment]).get
        ⟨0, by simp [refresh_new_crypto_payment_amount]⟩).status =
      ([staleWaitPayment].get ⟨0, by decide⟩).status ∧
    ((refresh_new_crypto_payment_amount sampleConfig (flatAdapter 0) 0
        [staleWaitPayment]).get
        ⟨0, by simp [refresh_new_crypto_payment_amount]⟩).tx_hash =
      ([staleWaitPayment].get ⟨0, by decide⟩).tx_hash :=
  (refresh_sweep_frame sampleConfig (flatAdapter 0) 0 [staleWaitPayment] 0
    (by decide)).1 ⟨Or.inr (by decide), by decide⟩

/-- C10: the price-refresh sweep's selection ignores the backend code the
task was constructed for — a stale NEW/WAIT payment is recomputed with this
task's adapter and persisted even when it belongs to a different backend
(there is no hypothesis relating the payment's `crypto` to `cfg.crypto`,
and the witness instantiates them differently). -/
theorem refresh_sweep_ignores_backend (cfg : TaskConfig) (A : BackendAdapter)
    (now : Int) (store : List Payment) (i : Nat) (hi : i < store.length)
    (hdiff : (store.get ⟨i, hi⟩).crypto ≠ cfg.crypto)
    (hst : (store.get ⟨i, hi⟩).status = .new ∨
      (store.get ⟨i, hi⟩).status = .wait)
    (hupd : (store.get ⟨i, hi⟩).updated_at ≤
      now - cfg.refresh_prices_every_mins * 60) :
    (refresh_new_crypto_payment_amount cfg A now store).get
        ⟨i, by simpa [refresh_new_crypto_payment_amount] using hi⟩ =
      { store.get ⟨i, hi⟩ with
          crypto_amount := A.convert_from_fiat
            (store.get ⟨i, hi⟩).fiat_amount (store.get ⟨i, hi⟩).fiat_currency
          updated_at := now } := by
  have hget : (refresh_new_crypto_payment_amount cfg A now store).get
      ⟨i, by simpa [refresh_new_crypto_payment_amount] using hi⟩ =
      (if refreshSelected cfg.refresh_prices_every_mins now
          (store.get ⟨i, hi⟩) then
        { store.get ⟨i, hi⟩ with
            crypto_amount := A.convert_from_fiat
              (store.get ⟨i, hi⟩).fiat_amount (store.get ⟨i, hi⟩).fiat_currency
            updated_at := now }
      else store.get ⟨i, hi⟩) := by
    simp only [refresh_new_crypto_payment_amount]
    exact List.get_map _
  rw [hget, if_pos ((refreshSelected_iff _ now _).mpr ⟨hst, hupd⟩)]

/-- Witness for C10: a stale NEW payment of backend DOGECOIN is recomputed
by the BITCOIN task. -/
theorem refresh_sweep_ignores_backend_witness :
    ([otherBackendPayment].get ⟨0, by decide⟩).crypto ≠
        sampleConfig.crypto ∧
    (refresh_new_crypto_payment_amount sampleConfig (flatAdapter 0) 0
        [otherBackendPayment]).get
        ⟨0, by simp [refresh_new_crypto_payment_amount]⟩ =
      { [otherBackendPayment].get ⟨0, by decide⟩ with
          crypto_amount := (flatAdapter 0).convert_from_fiat
            ([otherBackendPayment].get ⟨0, by decide⟩).fiat_amount
            ([otherBackendPayment].get ⟨0, by decide⟩).fiat_currency
          updated_at := 0 } :=
  ⟨by decide,
    refresh_sweep_ignores_backend sampleConfig (flatAdapter 0) 0
      [otherBackendPayment] 0 (by decide) (by decide) (Or.inl (by decide))
      (by decide)⟩

/-- A failing iteration of the status-update loop leaves its payment's
persisted state unchanged. -/
theorem processPaymentExc_err_unchanged (cfg : TaskConfig)
    (FA : FallibleAdapter) (fromFiat : ℚ → String → ℚ)
    (saveOk : Payment → Bool) (now : Int) (p : Payment) (e : String)
    (h : (processPaymentExc cfg FA fromFiat saveOk now p).2.2 = some e) :
    (processPaymentExc cfg FA fromFiat saveOk now p).1 = p := by
  revert h
  unfold processPaymentExc
  dsimp only
  repeat' split
  all_goals intro h
  all_goals first
    | rfl
    | exact Option.noConfusion h

/-- The status-update loop distributes over list append: each record is
processed independently. -/
theorem updateLoopExc_append (cfg : TaskConfig) (FA : FallibleAdapter)
    (fromFiat : ℚ → String → ℚ) (saveOk : Payment → Bool) (now : Int)
    (l1 l2 : List Payment) :
    updateLoopExc cfg FA fromFiat saveOk now (l1 ++ l2) =
      ((updateLoopExc cfg FA fromFiat saveOk now l1).1 ++
          (updateLoopExc cfg FA fromFiat saveOk now l2).1,
        (updateLoopExc cfg FA fromFiat saveOk now l1).2.1 ++
          (updateLoopExc cfg FA fromFiat saveOk now l2).2.1,
        (updateLoopExc cfg FA fromFiat saveOk now l1).2.2 ++
          (updateLoopExc cfg FA fromFiat saveOk now l2).2.2) := by
  induction l1 with
  | nil => simp [updateLoopExc]
  | cons p rest ih => simp [updateLoopExc, ih]

/-- C5: in the status-update sweep, an exception while processing one
payment is caught — the payment's persisted state is unchanged, the error
is logged with the payment's primary key — and every payment before and
after it in the selection is still processed exactly as it would be on its
own; the sweep returns normally (its result type is total). -/
theorem update_sweep_error_isolation (cfg : TaskConfig)
    (FA : FallibleAdapter) (fromFiat : ℚ → String → ℚ)
    (saveOk : Payment → Bool) (now : Int) (l1 l2 : List Payment)
    (bad : Payment) (e : String)
    (herr : (processPaymentExc cfg FA fromFiat saveOk now bad).2.2 = some e) :
    (updateLoopExc cfg FA fromFiat saveOk now (l1 ++ bad :: l2)).1 =
      (updateLoopExc cfg FA fromFiat saveOk now l1).1 ++
        bad :: (updateLoopExc cfg FA fromFiat saveOk now l2).1 ∧
    (bad.pk, e) ∈ (updateLoopExc cfg FA fromFiat saveOk now
      (l1 ++ bad :: l2)).2.2 := by
  have hbad := processPaymentExc_err_unchanged cfg FA fromFiat saveOk now
    bad e herr
  have happ := updateLoopExc_append cfg FA fromFiat saveOk now l1 (bad :: l2)
  constructor
  · rw [happ]
    simp [updateLoopExc, hbad]
  · rw [happ]
    simp [updateLoopExc, herr]

/-- Witness for C5: the adapter raises on the sample payment, the error is
logged under its primary key, and the stale payment after it is still
processed (it is set to WAIT by the benign no-hash outcome). -/
theorem update_sweep_error_isolation_witness :
    ((updateLoopExc sampleConfig
        { idleAdapter with confirm := fun a t c m h =>
            if a = 4 then .error "boom" else .ok .noHash }
        (fun q _ => q) (fun _ => true) 0 ([] ++ samplePayment ::
          [stalePayment])).1 =
      (updateLoopExc sampleConfig
        { idleAdapter with confirm := fun a t c m h =>
            if a = 4 then .error "boom" else .ok .noHash }
        (fun q _ => q) (fun _ => true) 0 []).1 ++
        samplePayment :: (updateLoopExc sampleConfig
          { idleAdapter with confirm := fun a t c m h =>
              if a = 4 then .error "boom" else .ok .noHash }
          (fun q _ => q) (fun _ => true) 0 [stalePayment]).1 ∧
      (samplePayment.pk, "boom") ∈ (updateLoopExc sampleConfig
        { idleAdapter with confirm := fun a t c m h =>
            if a = 4 then .error "boom" else .ok .noHash }
        (fun q _ => q) (fun _ => true) 0 ([] ++ samplePayment ::
          [stalePayment])).2.2) :=
  update_sweep_error_isolation sampleConfig
    { idleAdapter with confirm := fun a t c m h =>
        if a = 4 then .error "boom" else .ok .noHash }
    (fun q _ => q) (fun _ => true) 0 [] [stalePayment] samplePayment "boom"
    rfl

/-- C6 counterexample: in the unpaid-expiry sweep a failing save is not
isolated — the run aborts with the error, and the eligible WAIT payment
after the failing record is left unprocessed (still not CANCELLED). -/
theorem cancel_sweep_error_propagates_cex :
    (cancelLoopExc 24 (fun p => decide (p.pk ≠ 8)) 0
        [stalePayment, staleWaitPayment]).2 = some (8, "save") ∧
    ∃ q ∈ (cancelLoopExc 24 (fun p => decide (p.pk ≠ 8)) 0
        [stalePayment, staleWaitPayment]).1,
      q.pk = staleWaitPayment.pk ∧ cancelSelected 24 0 q = true ∧
      q.status ≠ .cancelled := by decide

/-- C6 amended: in the status-update sweep per-record errors are isolated
(see the C5 theorem), but the unpaid-expiry and price-refresh sweeps have no
per-record handler: the first error — a failing save in the expiry sweep, a
failing fiat conversion in the price-refresh sweep — aborts the loop, the
failing record and every record after it are left unprocessed, and the
exception propagates out of the sweep. -/
theorem sweep_error_propagation_charac :
    (∀ (hrs now : Int) (saveOk : Payment → Bool) (l1 l2 : List Payment)
        (bad : Payment),
      (∀ q ∈ l1, cancelSelected hrs now q = true →
        saveOk { q with status := .cancelled, updated_at := now } = true) →
      cancelSelected hrs now bad = true →
      saveOk { bad with status := .cancelled, updated_at := now } = false →
      cancelLoopExc hrs saveOk now (l1 ++ bad :: l2) =
        ((cancelLoopExc hrs saveOk now l1).1 ++ bad :: l2,
          some (bad.pk, "save"))) ∧
    (∀ (mins now : Int) (FA : FallibleAdapter) (saveOk : Payment → Bool)
        (l1 l2 : List Payment) (bad : Payment) (e : String),
      (∀ q ∈ l1, refreshSelected mins now q = true →
        ∃ amt, FA.convert_from_fiat q.fiat_amount q.fiat_currency =
            .ok amt ∧
          saveOk { q with crypto_amount := amt, updated_at := now } =
            true) →
      refreshSelected mins now bad = true →
      FA.convert_from_fiat bad.fiat_amount bad.fiat_currency = .error e →
      refreshLoopExc mins FA saveOk now (l1 ++ bad :: l2) =
        ((refreshLoopExc mins FA saveOk now l1).1 ++ bad :: l2,
          some (bad.pk, e))) := by
  constructor
  · intro hrs now saveOk l1 l2 bad
    induction l1 with
    | nil =>
        intro _ hsel hfail
        simp [cancelLoopExc, hsel, hfail]
    | cons q rest ih =>
        intro hok hsel hfail
        have ihr := ih (fun r hr => hok r (List.mem_cons_of_mem q hr))
          hsel hfail
        by_cases hqsel : cancelSelected hrs now q = true
        · have hsave := hok q (List.mem_cons_self q rest) hqsel
          simp [cancelLoopExc, hqsel, hsave, ihr]
        · simp [cancelLoopExc, hqsel, ihr]
  · intro mins now FA saveOk l1 l2 bad e
    induction l1 with
    | nil =>
        intro _ hsel hconv
        simp [refreshLoopExc, hsel, hconv]
    | cons q rest ih =>
        intro hok hsel hconv
        have ihr := ih (fun r hr => hok r (List.mem_cons_of_mem q hr))
          hsel hconv
        by_cases hqsel : refreshSelected mins now q = true
        · obtain ⟨amt, hc, hsave⟩ := hok q (List.mem_cons_self q rest) hqsel
          simp [refreshLoopExc, hqsel, hc, hsave, ihr]
        · simp [refreshLoopExc, hqsel, ihr]

/-- Witness for the amended C6 at concrete inputs: the expiry loop aborts on
a save failure for the stale NEW payment and leaves the stale WAIT payment
untouched; the refresh loop aborts on a conversion failure likewise. -/
theorem sweep_error_propagation_charac_witness :
    cancelLoopExc 24 (fun p => decide (p.pk ≠ 8)) 0
        ([] ++ stalePayment :: [staleWaitPayment]) =
      ((cancelLoopExc 24 (fun p => decide (p.pk ≠ 8)) 0 []).1 ++
        stalePayment :: [staleWaitPayment],
        some (stalePayment.pk, "save")) ∧
    refreshLoopExc 15 failingAdapter (fun _ => true) 0
        ([] ++ stalePayment :: [staleWaitPayment]) =
      ((refreshLoopExc 15 failingAdapter (fun _ => true) 0 []).1 ++
        stalePayment :: [staleWaitPayment],
        some (stalePayment.pk, "boom")) :=
  ⟨sweep_error_propagation_charac.1 24 0 (fun p => decide (p.pk ≠ 8))
      [] [staleWaitPayment] stalePayment (by simp) (by decide) (by decide),
    sweep_error_propagation_charac.2 15 0 failingAdapter (fun _ => true)
      [] [staleWaitPayment] stalePayment "boom" (by simp) (by decide) rfl⟩

/-- A PAID or CANCELLED payment is not selected by the status-update
sweep. -/
theorem updateSelected_false_of_terminal (cfg : TaskConfig) (now : Int)
    (p : Payment) (h : p.status = .paid ∨ p.status = .cancelled) :
    updateSelected cfg now p = false := by
  rcases h with h | h <;> simp [updateSelected, statusInUpdateSet, h]

/-- With an adapter whose outcome depends only on the address,
re-processing the saved state of a just-processed payment either is a
no-op, or the saved state is no longer selected. -/
theorem processPayment_stable (cfg : TaskConfig) (A : BackendAdapter)
    (now : Int) (p : Payment)
    (hstable : ∀ (a : Nat) (t₁ : ℚ) (h₁ : Option Nat) (t₂ : ℚ)
      (h₂ : Option Nat),
      A.confirm a t₁ cfg.confirmation_number
          cfg.confirm_bal_without_hash_mins h₁ =
        A.confirm a t₂ cfg.confirmation_number
          cfg.confirm_bal_without_hash_mins h₂) :
    updateSelected cfg now (processPayment cfg A now p).1 = false ∨
    (processPayment cfg A now (processPayment cfg A now p).1).1 =
      (processPayment cfg A now p).1 := by
  cases hout : A.confirm p.address p.crypto_amount cfg.confirmation_number
      cfg.confirm_bal_without_hash_mins p.tx_hash with
  | unconfirmed v =>
      right
      simp only [processPayment, hout]
      rw [hstable p.address p.crypto_amount v p.crypto_amount p.tx_hash,
        hout]
  | confirmed v =>
      left
      apply updateSelected_false_of_terminal
      left
      simp [processPayment, hout]
  | underpaid r =>
      simp only [processPayment, hout]
      by_cases hs : cfg.create_new_underpayment = true ∧
          cfg.ignore_underpayment_amount <
            A.convert_to_fiat r p.fiat_currency
      · left
        rw [if_pos hs]
        exact updateSelected_false_of_terminal cfg now _ (Or.inl rfl)
      · rw [if_neg hs]
        by_cases hd : A.convert_to_fiat r p.fiat_currency ≤
            cfg.ignore_underpayment_amount
        · left
          rw [if_pos hd]
          exact updateSelected_false_of_terminal cfg now _ (Or.inl rfl)
        · right
          rw [if_neg hd]
          rw [hstable p.address p.crypto_amount p.tx_hash p.crypto_amount
            p.tx_hash, hout]
          dsimp only
          rw [if_neg hs, if_neg hd]
  | noHash =>
      right
      simp only [processPayment, hout]
      rw [hstable p.address p.crypto_amount none p.crypto_amount p.tx_hash,
        hout]
  | unknown =>
      left
      apply updateSelected_false_of_terminal
      right
      simp [processPayment, hout]

/-- With an adapter whose outcome depends only on the address, one record's
status-update step is idempotent. -/
theorem updateRecord_idem (cfg : TaskConfig) (A : BackendAdapter)
    (now : Int) (p : Payment)
    (hstable : ∀ (a : Nat) (t₁ : ℚ) (h₁ : Option Nat) (t₂ : ℚ)
      (h₂ : Option Nat),
      A.confirm a t₁ cfg.confirmation_number
          cfg.confirm_bal_without_hash_mins h₁ =
        A.confirm a t₂ cfg.confirmation_number
          cfg.confirm_bal_without_hash_mins h₂) :
    updateRecord cfg A now (updateRecord cfg A now p) =
      updateRecord cfg A now p := by
  unfold updateRecord
  by_cases h1 : updateSelected cfg now p = true
  · rw [if_pos h1]
    rcases processPayment_stable cfg A now p hstable with h2 | h2
    · rw [if_neg (by rw [h2]; exact Bool.false_ne_true)]
    · by_cases h3 : updateSelected cfg now (processPayment cfg A now p).1 =
          true
      · rw [if_pos h3, h2]
      · rw [if_neg h3]
  · rw [if_neg h1, if_neg h1]

/-- C8 counterexample: with an adapter whose outcome depends only on the
address and is identical in both runs, two successive status-update sweeps
do not produce the same store: the first run spawns a child payment in NEW
status, and the second run advances that child to WAIT (its no-funds
outcome), so the field values after the second run differ from those after
the first. -/
theorem update_sweep_not_idempotent_cex :
    (∀ (a : Nat) (t₁ : ℚ) (h₁ : Option Nat) (t₂ : ℚ) (h₂ : Option Nat),
      spawnThenIdleAdapter.confirm a t₁ sampleConfig.confirmation_number
          sampleConfig.confirm_bal_without_hash_mins h₁ =
        spawnThenIdleAdapter.confirm a t₂ sampleConfig.confirmation_number
          sampleConfig.confirm_bal_without_hash_mins h₂) ∧
    (update_crypto_currency_payment_status sampleConfig spawnThenIdleAdapter
          0 (update_crypto_currency_payment_status sampleConfig
            spawnThenIdleAdapter 0 [samplePayment])).map Payment.status ≠
      (update_crypto_currency_payment_status sampleConfig
        spawnThenIdleAdapter 0 [samplePayment]).map Payment.status := by
  refine ⟨fun _ _ _ _ _ => rfl, ?_⟩
  have h1 : (update_crypto_currency_payment_status sampleConfig
      spawnThenIdleAdapter 0 [samplePayment]).map Payment.status =
      [.paid, .new] := by
    simp [update_crypto_currency_payment_status, updateRecord,
      updateChildren, updateSelection, updateSelected, statusInUpdateSet,
      processPayment, create_child_payment, txLe, optNatLe, sampleConfig,
      samplePayment, spawnThenIdleAdapter,
      show (10:ℚ) < 25 from by norm_num]
  have h2 : (update_crypto_currency_payment_status sampleConfig
      spawnThenIdleAdapter 0 (update_crypto_currency_payment_status
        sampleConfig spawnThenIdleAdapter 0 [samplePayment])).map
      Payment.status = [.paid, .wait] := by
    simp [update_crypto_currency_payment_status, updateRecord,
      updateChildren, updateSelection, updateSelected, statusInUpdateSet,
      processPayment, create_child_payment, txLe, optNatLe, sampleConfig,
      samplePayment, spawnThenIdleAdapter,
      show (10:ℚ) < 25 from by norm_num]
  rw [h1, h2]
  decide

/-- C8 amended: with an adapter whose outcome depends only on the address
and is the same in both runs, every payment that was in the store before
the first status-update sweep has the same fields after the second sweep as
after the first (the sweep is idempotent on pre-existing records); child
payments spawned by the first run, appended after the original records, are
themselves processed by the second run and may still change. -/
theorem update_sweep_idem_on_preexisting (cfg : TaskConfig)
    (A : BackendAdapter) (now : Int) (store : List Payment)
    (hstable : ∀ (a : Nat) (t₁ : ℚ) (h₁ : Option Nat) (t₂ : ℚ)
      (h₂ : Option Nat),
      A.confirm a t₁ cfg.confirmation_number
          cfg.confirm_bal_without_hash_mins h₁ =
        A.confirm a t₂ cfg.confirmation_number
          cfg.confirm_bal_without_hash_mins h₂) :
    (update_crypto_currency_payment_status cfg A now
        (update_crypto_currency_payment_status cfg A now store)).take
        store.length =
      (update_crypto_currency_payment_status cfg A now store).take
        store.length := by
  unfold update_crypto_currency_payment_status
  rw [List.map_append, List.append_assoc, List.take_left' (by simp),
    List.take_left' (by simp), List.map_map]
  exact List.map_congr_left
    (fun a _ => updateRecord_idem cfg A now a hstable)

/-- Witness for the amended C8 at the sample inputs. -/
theorem update_sweep_idem_on_preexisting_witness :
    (update_crypto_currency_payment_status sampleConfig spawnThenIdleAdapter
        0 (update_crypto_currency_payment_status sampleConfig
          spawnThenIdleAdapter 0 [samplePayment])).take
        [samplePayment].length =
      (update_crypto_currency_payment_status sampleConfig
        spawnThenIdleAdapter 0 [samplePayment]).take
        [samplePayment].length :=
  update_sweep_idem_on_preexisting sampleConfig spawnThenIdleAdapter 0
    [samplePayment] (fun _ _ _ _ _ => rfl)

end CryptoPayment
